import Mathlib

/-!
Verification of the client-side media upload pipeline of the journalist-portfolio
repository: HEIC detection (`isHEICFile`), HEIC-to-JPEG conversion
(`convertHEICToJPEG`), validation (`validateFile`), storage-path generation
(`generateFilePath`), the upload facade (`uploadFile`) and URL-keyed deletion
(`deleteFile`).  JavaScript strings are modelled as Lean `String`; the browser
`File` object as the record `JFile`; outcomes of external calls (the heic2any
decoder, the resumable upload transport, the clock and the random generator)
are passed in explicitly.
-/

/-- Model of a browser `File` descriptor: the fields the pipeline reads. -/
structure JFile where
  name : String
  size : Nat
  type : String
  deriving Repr, DecidableEq

/-- Model of a binary `Blob` produced by the heic2any decoder. -/
structure Blob where
  size : Nat
  deriving Repr, DecidableEq

/-- JavaScript `String.prototype.toLowerCase` (ASCII range, as used on
filenames and MIME strings). -/
def jsToLower (s : String) : String := ⟨s.data.map Char.toLower⟩

/-- JavaScript `String.prototype.toUpperCase` (ASCII range). -/
def jsToUpper (s : String) : String := ⟨s.data.map Char.toUpper⟩

/-- JavaScript `String.prototype.endsWith`. -/
def jsEndsWith (s t : String) : Bool := t.data.isSuffixOf s.data

/-- The extension list checked by the detector (`heicExtensions` in the source). -/
def heicExtensions : List String := [".heic", ".heif", ".hif"]

/-- The MIME list checked by the detector (`heicMimeTypes` in the source). -/
def heicMimeTypes : List String :=
  ["image/heic", "image/heif", "image/heic-sequence", "image/heif-sequence"]

/-- `isHEICFile` from `imageConverter`: `none` models a null file argument. -/
def isHEICFile : Option JFile → Bool
  | none => false
  | some file =>
    let fileName := jsToLower file.name
    let fileType := jsToLower file.type
    (heicExtensions.any fun ext => jsEndsWith fileName ext) ||
      heicMimeTypes.contains fileType

/-- The filename rewrite `heicFile.name.replace(/\.(heic|heif|hif)$/i, ".jpg")`:
if the lowercased name ends in one of the three HEIC extensions, that suffix is
replaced by `.jpg`; otherwise the name is unchanged. -/
def rewriteHeicExt (name : String) : String :=
  match heicExtensions.find? (fun ext => jsEndsWith (jsToLower name) ext) with
  | some ext => ⟨name.data.take (name.data.length - ext.length) ++ ".jpg".data⟩
  | none => name

/-- `convertHEICWithLibrary`: `decode` is the outcome of the external
`heic2any` call, a rejection message or the returned blob list (a lone blob is
the one-element list).  An empty list models the `undefined` first element that
trips the invalid-blob check; both failure paths are wrapped by the `catch`. -/
def convertHEICWithLibrary (decode : Except String (List Blob)) (heicFile : JFile) :
    Except String JFile :=
  match decode with
  | .error msg =>
    .error ("Failed to convert HEIC image: " ++ msg ++
      ". Please try converting the image to JPEG manually.")
  | .ok convertedBlobs =>
    match convertedBlobs.head? with
    | none =>
      .error ("Failed to convert HEIC image: Conversion failed: Invalid blob returned" ++
        ". Please try converting the image to JPEG manually.")
    | some jpegBlob =>
      .ok { name := rewriteHeicExt heicFile.name, size := jpegBlob.size, type := "image/jpeg" }

/-- `convertHEICToJPEG`: returns the settled value together with the list of
values passed to the optional `onProgress` callback, in order. -/
def convertHEICToJPEG (decode : Except String (List Blob)) (file : Option JFile) :
    Except String (Option JFile) × List Nat :=
  match file with
  | none => (.ok none, [])
  | some f =>
    if isHEICFile (some f) = false then (.ok (some f), [])
    else
      match convertHEICWithLibrary decode f with
      | .ok converted => (.ok (some converted), [10, 100])
      | .error msg =>
        (.error ("Unable to convert HEIC image automatically: " ++ msg ++
          ". Please convert the image to JPEG or PNG format manually. " ++
          "On Mac: Open in Preview → File → Export → Format: JPEG"), [10])

/-- JavaScript `String.prototype.split` with a one-character separator,
on character lists (structurally recursive, so terms evaluate by reduction). -/
def splitChar (sep : Char) : List Char → List (List Char)
  | [] => [[]]
  | c :: rest =>
    let r := splitChar sep rest
    if c = sep then [] :: r
    else
      match r with
      | [] => [[c]]
      | h :: t => (c :: h) :: t

/-- JavaScript `s.split(sep)` for a one-character separator. -/
def jsSplitChar (sep : Char) (s : String) : List String :=
  (splitChar sep s.data).map fun l => ⟨l⟩

/-- The extension list of `getImageFormatError` in `imageConverter`. -/
def formatErrorExtensions : List String :=
  ["heic", "heif", "hif", "tiff", "tif", "bmp", "raw", "cr2", "nef"]

/-- `getImageFormatError` from `imageConverter` (always called with a file). -/
def getImageFormatError (file : JFile) : String :=
  if isHEICFile (some file) then
    "HEIC images are not supported. Please convert to JPEG or PNG format.\n\n" ++
    "On Mac:\n" ++
    "1. Open the image in Preview\n" ++
    "2. Go to File → Export\n" ++
    "3. Choose Format: JPEG or PNG\n" ++
    "4. Save and upload the converted file\n\n" ++
    "Alternatively, take photos in JPEG format: Settings → Camera → Formats → Most Compatible"
  else
    let fileName := if file.name = "" then "Unknown" else file.name
    let fileExtension := jsToLower ((jsSplitChar '.' fileName).getLastD "")
    if formatErrorExtensions.contains fileExtension then
      "The " ++ jsToUpper fileExtension ++ " format is not supported for web display.\n\n" ++
      "Please convert to JPEG, PNG, GIF, or WebP format before uploading."
    else
      "Unsupported image format. Please use JPEG, PNG, GIF, or WebP format."

/-- `getFileExtension` from the storage service. -/
def getFileExtension (filename : String) : String :=
  if filename = "" then ""
  else
    let parts := jsSplitChar '.' filename
    if parts.length > 1 then jsToLower (parts.getLastD "") else ""

/-- The `FILE_UPLOAD` configuration object (its concrete values live in a
config module outside the captured sources, so it stays parametric). -/
structure FileUploadConfig where
  MAX_IMAGE_SIZE : Nat
  MAX_VIDEO_SIZE : Nat
  ALLOWED_IMAGE_TYPES : List String
  ALLOWED_VIDEO_TYPES : List String

/-- `Math.round (num / den)` for natural `num` and positive `den`:
round-half-up on the exact rational. -/
def mathRound (num den : Nat) : Nat := (2 * num + den) / (2 * den)

/-- The extension blocklist of `validateFile` (`unsupportedExtensions`). -/
def unsupportedImageExtensions : List String :=
  ["tiff", "tif", "bmp", "raw", "cr2", "nef", "orf", "arw"]

/-- `validateFile` from the storage service: `.ok true` models `return true`,
`.error` a thrown `Error` with the given message. -/
def validateFile (cfg : FileUploadConfig) (file : Option JFile) (tp : String) :
    Except String Bool :=
  let maxSize := if tp = "video" then cfg.MAX_VIDEO_SIZE else cfg.MAX_IMAGE_SIZE
  let allowedTypes := if tp = "video" then cfg.ALLOWED_VIDEO_TYPES else cfg.ALLOWED_IMAGE_TYPES
  match file with
  | none => .error "No file provided"
  | some f =>
    if maxSize < f.size then
      .error ("File size exceeds maximum allowed size of " ++
        toString (mathRound maxSize 1048576) ++ "MB")
    else if tp = "image" && unsupportedImageExtensions.contains (getFileExtension f.name) then
      .error (getImageFormatError f)
    else if allowedTypes.contains f.type = false then
      if tp = "image" then .error (getImageFormatError f)
      else .error ("File type not allowed. Allowed types: " ++ String.intercalate ", " allowedTypes)
    else .ok true

/-- `generateFilePath` from the storage service; `timestamp` is the `Date.now()`
reading and `randomString` the base-36 token cut by
`Math.random().toString(36).substring(2, 15)`, both supplied by the caller of
the model. -/
def generateFilePath (timestamp : Nat) (randomString : String) (file : JFile)
    (folder : String) : String :=
  let fileExtension := (jsSplitChar '.' file.name).getLastD ""
  let fileName := toString timestamp ++ "_" ++ randomString ++ "." ++ fileExtension
  folder ++ "/" ++ fileName

/-- The percentage handed to the caller's progress callback on a transfer
snapshot: `Math.round((bytesTransferred / totalBytes) * 100)`. -/
def progressValue (bytesTransferred totalBytes : Nat) : Nat :=
  mathRound (bytesTransferred * 100) totalBytes

/-- Outcomes of the external calls one `uploadFile` run can make: the Firebase
configuration check, the heic2any decode, the resumable transfer (an `.error`
is the transport rejection, an `.ok` the download URL the completed task
resolves to), and the clock and random readings used by `generateFilePath`. -/
structure UploadEnv where
  configured : Bool
  decode : Except String (List Blob)
  uploadResult : Except String String
  timestamp : Nat
  randomString : String

/-- Observable trace of one `uploadFile` run: whether `convertHEICToJPEG` ran,
the argument `validateFile` received (if it ran), whether
`uploadBytesResumable` was invoked, the generated storage path, and the settled
value of the returned promise. -/
structure UploadTrace where
  converterInvoked : Bool
  validatedFile : Option (Option JFile)
  uploaderInvoked : Bool
  filePath : Option String
  result : Except String String
  deriving Repr

/-- The tail of `uploadFile` after the HEIC branch: validation, path
generation, and the resumable upload.  The `.ok`/`none` arm is unreachable
because `validateFile` rejects a missing file (`validateFile_none` below). -/
def uploadAfterConversion (cfg : FileUploadConfig) (env : UploadEnv)
    (fileToUpload : Option JFile) (folder tp : String) (convInvoked : Bool) : UploadTrace :=
  match validateFile cfg fileToUpload tp with
  | .error e =>
    { converterInvoked := convInvoked, validatedFile := some fileToUpload,
      uploaderInvoked := false, filePath := none, result := .error e }
  | .ok _ =>
    match fileToUpload with
    | none =>
      { converterInvoked := convInvoked, validatedFile := some none,
        uploaderInvoked := false, filePath := none, result := .error "No file provided" }
    | some f =>
      { converterInvoked := convInvoked, validatedFile := some (some f),
        uploaderInvoked := true,
        filePath := some (generateFilePath env.timestamp env.randomString f folder),
        result := env.uploadResult }

/-- `uploadFile` from the storage service, with defaults
`folder = "uploads"`, `type = "image"` supplied by the caller of the model. -/
def uploadFile (cfg : FileUploadConfig) (env : UploadEnv) (file : Option JFile)
    (folder tp : String) : UploadTrace :=
  if env.configured = false then
    { converterInvoked := false, validatedFile := none, uploaderInvoked := false,
      filePath := none,
      result := .error "Firebase is not configured. Please check your environment variables." }
  else if decide (tp = "image") && isHEICFile file then
    match convertHEICToJPEG env.decode file with
    | (.error e, _) =>
      { converterInvoked := true, validatedFile := none, uploaderInvoked := false,
        filePath := none, result := .error e }
    | (.ok fileToUpload, _) => uploadAfterConversion cfg env fileToUpload folder tp true
  else uploadAfterConversion cfg env file folder tp false

/-- JavaScript `String.prototype.startsWith`. -/
def jsStartsWith (s t : String) : Bool := s.data.take t.length = t.data

/-- `new URL(s).pathname` for an absolute http(s) URL, per the WHATWG parser:
the host ends at the first `/`, `?` or `#` after the scheme, and the pathname
ends at the first `?` or `#`.  `none` models the constructor throwing on a
non-http(s) string. -/
def parsePathname (s : String) : Option String :=
  let afterScheme :=
    if jsStartsWith s "https://" then some (s.data.drop 8)
    else if jsStartsWith s "http://" then some (s.data.drop 7)
    else none
  match afterScheme with
  | none => none
  | some rest =>
    let tail := rest.dropWhile fun c => !(c = '/' || c = '?' || c = '#')
    match tail with
    | [] => some "/"
    | c :: _ =>
      if c = '/' then some ⟨tail.takeWhile fun x => !(x = '?' || x = '#')⟩
      else some "/"

/-- Index of the last `?` in a character list, if any. -/
def lastQuestionIdx : List Char → Option Nat
  | [] => none
  | c :: rest =>
    match lastQuestionIdx rest with
    | some i => some (i + 1)
    | none => if c = '?' then some 0 else none

/-- The match of the regular expression `/\/o\/(.+)\?/` against a character
list: the leftmost start where `/o/` is followed by at least one character and
a later `?`; the greedy capture runs to the last such `?`. -/
def regexOMatch : List Char → Option (List Char)
  | [] => none
  | c :: rest =>
    if (c :: rest).take 3 = ['/', 'o', '/'] then
      let after := (c :: rest).drop 3
      match lastQuestionIdx after with
      | some i => if 1 ≤ i then some (after.take i) else regexOMatch rest
      | none => regexOMatch rest
    else regexOMatch rest

/-- Hexadecimal digit value, as read by `decodeURIComponent`. -/
def hexVal (c : Char) : Option Nat :=
  if '0' ≤ c ∧ c ≤ '9' then some (c.toNat - 48)
  else if 'A' ≤ c ∧ c ≤ 'F' then some (c.toNat - 55)
  else if 'a' ≤ c ∧ c ≤ 'f' then some (c.toNat - 97)
  else none

/-- `decodeURIComponent` restricted to single-byte escape sequences (the only
shapes the storage paths can produce); other characters pass through. -/
def percentDecode : List Char → List Char
  | '%' :: a :: b :: rest =>
    match hexVal a, hexVal b with
    | some x, some y => Char.ofNat (16 * x + y) :: percentDecode rest
    | _, _ => '%' :: percentDecode (a :: b :: rest)
  | c :: rest => c :: percentDecode rest
  | [] => []
termination_by l => l.length

/-- `deleteFile` from the storage service: `.ok p` models a completed
`deleteObject` on the decoded path `p`, `.error` a thrown error (the
`Invalid URL` arm is the `URL` constructor throwing on a malformed string). -/
def deleteFile (configured : Bool) (fileUrl : String) : Except String String :=
  if configured = false then .error "Firebase Storage is not configured"
  else
    match parsePathname fileUrl with
    | none => .error "Invalid URL"
    | some pathname =>
      match regexOMatch pathname.data with
      | none => .error "Invalid Firebase Storage URL"
      | some captured => .ok ⟨percentDecode captured⟩

/-- Characters `encodeURIComponent` leaves unescaped. -/
def uriUnreserved (c : Char) : Bool :=
  c.isAlphanum || [Char.ofNat 45, Char.ofNat 95, Char.ofNat 46, Char.ofNat 33,
    Char.ofNat 126, Char.ofNat 42, Char.ofNat 39, Char.ofNat 40, Char.ofNat 41].contains c

/-- Upper-case hexadecimal digit character. -/
def hexDigitChar (n : Nat) : Char := if n < 10 then Char.ofNat (48 + n) else Char.ofNat (55 + n)

/-- `encodeURIComponent` for characters in the ASCII range (storage paths are
built from folder names, decimal digits and file extensions). -/
def encodeURIComponent (s : String) : String :=
  ⟨s.data.flatMap fun c =>
    if uriUnreserved c then [c]
    else ['%', hexDigitChar (c.toNat / 16), hexDigitChar (c.toNat % 16)]⟩

/-- Modelled from the spec: the public download URL Firebase returns for a
stored object — the code's own comment records the shape
`https://firebasestorage.googleapis.com/v0/b/BUCKET/o/PATH?alt=media` with the
path percent-encoded; the `getDownloadURL` implementation itself lives in the
Firebase SDK, outside this repository. -/
def firebaseDownloadURL (bucket path : String) : String :=
  "https://firebasestorage.googleapis.com/v0/b/" ++ bucket ++ "/o/" ++
    encodeURIComponent path ++ "?alt=media"

theorem validateFile_none (cfg : FileUploadConfig) (tp : String) :
    validateFile cfg none tp = .error "No file provided" := rfl

theorem getLast?_of_suffix {xs ys : List Char} (h : xs <:+ ys) (hne : xs ≠ []) :
    ys.getLast? = xs.getLast? := by
  obtain ⟨t, rfl⟩ := h
  exact List.getLast?_append_of_ne_nil t hne

theorem isSuffixOf_eq_false_of_getLast (c d : Char) {xs ys : List Char}
    (hx : xs.getLast? = some c) (hy : ys.getLast? = some d) (hne : c ≠ d) :
    List.isSuffixOf xs ys = false := by
  apply Bool.eq_false_iff.mpr
  intro h
  have hsuf : xs <:+ ys := List.isSuffixOf_iff_suffix.mp h
  have hxne : xs ≠ [] := by rintro rfl; simp at hx
  have hlast := getLast?_of_suffix hsuf hxne
  rw [hx, hy] at hlast
  exact hne (Option.some.inj hlast.symm)

/-- The characterised form of the detector, following the specification text:
the lowercased filename ends in one of the three extensions, or the lowercased
declared MIME type is one of the four HEIC/HEIF MIME strings; an absent file is
never HEIC. -/
def isHEICFileSpec : Option JFile → Bool
  | none => false
  | some f =>
    jsEndsWith (jsToLower f.name) ".heic" || jsEndsWith (jsToLower f.name) ".heif" ||
      jsEndsWith (jsToLower f.name) ".hif" ||
      decide (jsToLower f.type = "image/heic") || decide (jsToLower f.type = "image/heif") ||
      decide (jsToLower f.type = "image/heic-sequence") ||
      decide (jsToLower f.type = "image/heif-sequence")

/-- C7: the detector returns true exactly when the lowercased filename ends in
`.heic`, `.heif` or `.hif`, or the lowercased declared MIME type is one of the
four HEIC/HEIF MIME strings; a null file yields false.  (The model is a total
function, so the detector has no side effects and never errors.) -/
theorem detector_characterisation :
    (∀ file : Option JFile, isHEICFile file = isHEICFileSpec file) ∧
      isHEICFile none = false := by
  refine ⟨fun file => ?_, rfl⟩
  cases file with
  | none => rfl
  | some f =>
    rw [Bool.eq_iff_iff]
    simp [isHEICFile, isHEICFileSpec, heicExtensions, heicMimeTypes]
    tauto

/-- C9: each progress callback value is the rounded percentage and lies between
0 and 100 (it is a natural number, so the lower bound is inherent). -/
theorem progress_within_bounds (bytesTransferred totalBytes : Nat)
    (hpos : 0 < totalBytes) (hle : bytesTransferred ≤ totalBytes) :
    progressValue bytesTransferred totalBytes ≤ 100 := by
  unfold progressValue mathRound
  have hlt : 2 * (bytesTransferred * 100) + totalBytes < 101 * (2 * totalBytes) := by omega
  exact Nat.lt_succ_iff.mp ((Nat.div_lt_iff_lt_mul (by omega)).mpr hlt)

/-- C9 witness at a concrete transfer event. -/
theorem progress_within_bounds_witness :
    0 < 3 ∧ 1 ≤ 3 ∧ progressValue 1 3 ≤ 100 :=
  ⟨by decide, by decide, progress_within_bounds 1 3 (by decide) (by decide)⟩

/-- C10: on any file the detector rejects, the converter returns the very same
file, raises no error, and never invokes the progress callback. -/
theorem converter_identity_on_non_heic (decode : Except String (List Blob))
    (file : Option JFile) (h : isHEICFile file = false) :
    convertHEICToJPEG decode file = (.ok file, []) := by
  cases file with
  | none => rfl
  | some f => simp [convertHEICToJPEG, h]

/-- C10 witness at a concrete non-HEIC file. -/
theorem converter_identity_on_non_heic_witness :
    isHEICFile (some ⟨"doc.png", 7, "image/png"⟩) = false ∧
      convertHEICToJPEG (.ok []) (some ⟨"doc.png", 7, "image/png"⟩) =
        (.ok (some ⟨"doc.png", 7, "image/png"⟩), []) :=
  ⟨by decide, converter_identity_on_non_heic (.ok []) _ (by decide)⟩

theorem isHEICFile_rewrite_ext_false (name : String) (ext : String)
    (hm : ext ∈ heicExtensions) :
    jsEndsWith (jsToLower (rewriteHeicExt name)) ext = false := by
  unfold rewriteHeicExt
  cases hf : heicExtensions.find? (fun e => jsEndsWith (jsToLower name) e) with
  | none =>
    have h := List.find?_eq_none.mp hf ext hm
    simpa using h
  | some e =>
    simp only [jsEndsWith, jsToLower, List.map_append]
    have hjpg : ".jpg".data.map Char.toLower = ['.', 'j', 'p', 'g'] := by decide
    rw [hjpg]
    have hy :
        (((name.data.take (name.data.length - e.length)).map Char.toLower) ++
          ['.', 'j', 'p', 'g']).getLast? = some 'g' :=
      List.getLast?_append_of_ne_nil _ (by simp)
    fin_cases hm
    · exact isSuffixOf_eq_false_of_getLast 'c' 'g' (by decide) hy (by decide)
    · exact isSuffixOf_eq_false_of_getLast 'f' 'g' (by decide) hy (by decide)
    · exact isSuffixOf_eq_false_of_getLast 'f' 'g' (by decide) hy (by decide)

theorem isHEICFile_converted (name : String) (bsize : Nat) :
    isHEICFile (some { name := rewriteHeicExt name, size := bsize, type := "image/jpeg" }) =
      false := by
  simp only [isHEICFile]
  rw [Bool.or_eq_false_iff]
  constructor
  · rw [List.any_eq_false]
    intro x hx
    simp [isHEICFile_rewrite_ext_false name x hx]
  · decide

/-- A concrete instantiation of the parametric `FILE_UPLOAD` configuration,
used for closed witnesses and counterexamples. -/
def sampleConfig : FileUploadConfig :=
  { MAX_IMAGE_SIZE := 10485760, MAX_VIDEO_SIZE := 52428800,
    ALLOWED_IMAGE_TYPES := ["image/jpeg", "image/png", "image/gif", "image/webp"],
    ALLOWED_VIDEO_TYPES := ["video/mp4", "video/webm"] }

/-- A concrete external environment for closed witnesses and counterexamples:
Firebase configured, the decoder yielding one 100-byte blob, the transfer
resolving to a fixed URL. -/
def sampleEnv : UploadEnv :=
  { configured := true, decode := .ok [⟨100⟩],
    uploadResult := .ok "https://example.com/u",
    timestamp := 1700000000000, randomString := "abc123" }

/-- C2 (amended): for a detector-accepted file whose decode succeeds with a
first blob, the converter resolves to a file with MIME type `image/jpeg` whose
name is the original with a trailing HEIC/HEIF/HIF extension (any case)
rewritten to `.jpg`; whenever the original name carries such an extension the
result name therefore ends in `.jpg`.  A file detected via MIME type alone
keeps its original name. -/
theorem converter_output_on_heic (f : JFile) (b : Blob) (bs : List Blob)
    (h : isHEICFile (some f) = true) :
    convertHEICToJPEG (.ok (b :: bs)) (some f) =
      (.ok (some { name := rewriteHeicExt f.name, size := b.size, type := "image/jpeg" }),
        [10, 100]) ∧
    ((heicExtensions.any fun ext => jsEndsWith (jsToLower f.name) ext) = true →
      jsEndsWith (rewriteHeicExt f.name) ".jpg" = true) := by
  constructor
  · simp [convertHEICToJPEG, convertHEICWithLibrary, h]
  · intro hext
    have hfind : (heicExtensions.find? fun ext => jsEndsWith (jsToLower f.name) ext).isSome := by
      rw [List.find?_isSome]
      rcases List.any_eq_true.mp hext with ⟨x, hx, hpx⟩
      exact ⟨x, hx, hpx⟩
    obtain ⟨e, he⟩ := Option.isSome_iff_exists.mp hfind
    unfold rewriteHeicExt
    rw [he]
    simp only [jsEndsWith]
    rw [List.isSuffixOf_iff_suffix]
    exact List.suffix_append _ _

/-- C2 counterexample: the file named `photo.png` declared as `image/heic` is
accepted by the detector, yet a successful conversion returns a file still
named `photo.png`, which does not end in `.jpg`. -/
theorem converter_output_counterexample :
    isHEICFile (some ⟨"photo.png", 100, "image/heic"⟩) = true ∧
    (convertHEICToJPEG (.ok [⟨50⟩]) (some ⟨"photo.png", 100, "image/heic"⟩)).1 =
      .ok (some ⟨"photo.png", 50, "image/jpeg"⟩) ∧
    jsEndsWith "photo.png" ".jpg" = false :=
  ⟨by decide, rfl, by decide⟩

/-- C2 witness at `photo.HEIC` of 2 MB with a successful decode. -/
theorem converter_output_on_heic_witness :
    isHEICFile (some ⟨"photo.HEIC", 2097152, "image/heic"⟩) = true ∧
    (convertHEICToJPEG (.ok [⟨1000⟩]) (some ⟨"photo.HEIC", 2097152, "image/heic"⟩) =
        (.ok (some ⟨rewriteHeicExt "photo.HEIC", 1000, "image/jpeg"⟩), [10, 100]) ∧
      ((heicExtensions.any fun ext => jsEndsWith (jsToLower "photo.HEIC") ext) = true →
        jsEndsWith (rewriteHeicExt "photo.HEIC") ".jpg" = true)) :=
  ⟨by decide, converter_output_on_heic ⟨"photo.HEIC", 2097152, "image/heic"⟩ ⟨1000⟩ []
    (by decide)⟩

theorem uAC_converterInvoked (cfg : FileUploadConfig) (env : UploadEnv)
    (x : Option JFile) (folder tp : String) (b : Bool) :
    (uploadAfterConversion cfg env x folder tp b).converterInvoked = b := by
  unfold uploadAfterConversion
  cases validateFile cfg x tp with
  | error e => rfl
  | ok v =>
    cases x with
    | none => rfl
    | some f => rfl

theorem uAC_validatedFile (cfg : FileUploadConfig) (env : UploadEnv)
    (x : Option JFile) (folder tp : String) (b : Bool) :
    (uploadAfterConversion cfg env x folder tp b).validatedFile = some x := by
  unfold uploadAfterConversion
  cases validateFile cfg x tp with
  | error e => rfl
  | ok v =>
    cases x with
    | none => rfl
    | some f => rfl

theorem uAC_of_validate_error (cfg : FileUploadConfig) (env : UploadEnv)
    (x : Option JFile) (folder tp : String) (b : Bool) (e : String)
    (h : validateFile cfg x tp = .error e) :
    uploadAfterConversion cfg env x folder tp b =
      { converterInvoked := b, validatedFile := some x, uploaderInvoked := false,
        filePath := none, result := .error e } := by
  unfold uploadAfterConversion
  rw [h]

theorem uploadFile_spec (cfg : FileUploadConfig) (env : UploadEnv) (file : Option JFile)
    (folder tp : String) (hc : env.configured = true) :
    (∀ e prog, (decide (tp = "image") && isHEICFile file) = true →
      convertHEICToJPEG env.decode file = (.error e, prog) →
      uploadFile cfg env file folder tp =
        { converterInvoked := true, validatedFile := none, uploaderInvoked := false,
          filePath := none, result := .error e }) ∧
    (∀ x prog, (decide (tp = "image") && isHEICFile file) = true →
      convertHEICToJPEG env.decode file = (.ok x, prog) →
      uploadFile cfg env file folder tp = uploadAfterConversion cfg env x folder tp true) ∧
    ((decide (tp = "image") && isHEICFile file) = false →
      uploadFile cfg env file folder tp = uploadAfterConversion cfg env file folder tp false) := by
  refine ⟨?_, ?_, ?_⟩
  · intro e prog hb hconv
    simp [uploadFile, hc, hb, hconv]
  · intro x prog hb hconv
    simp [uploadFile, hc, hb, hconv]
  · intro hb
    simp [uploadFile, hc, hb]

theorem convertHEICToJPEG_ok_shape (decode : Except String (List Blob)) (f : JFile)
    (h : isHEICFile (some f) = true) (y : Option JFile) (prog : List Nat)
    (hconv : convertHEICToJPEG decode (some f) = (.ok y, prog)) :
    ∃ bsize, y = some { name := rewriteHeicExt f.name, size := bsize, type := "image/jpeg" } := by
  simp only [convertHEICToJPEG, h] at hconv
  cases hlib : convertHEICWithLibrary decode f with
  | error e => rw [hlib] at hconv; simp at hconv
  | ok c =>
    rw [hlib] at hconv
    have hy : y = some c := by
      have hfst := congrArg Prod.fst hconv
      simpa using hfst.symm
    subst hy
    cases decode with
    | error m => simp [convertHEICWithLibrary] at hlib
    | ok blobs =>
      simp only [convertHEICWithLibrary] at hlib
      cases hh : blobs.head? with
      | none => rw [hh] at hlib; simp at hlib
      | some b =>
        rw [hh] at hlib
        simp only [Except.ok.injEq] at hlib
        exact ⟨b.size, by rw [← hlib]⟩

/-- C3 (amended): in every configured image-category run of the upload facade,
the file handed to the Validator is never one the detector accepts — HEIC
conversion has already happened by the time validation runs.  (For the video
category the facade skips conversion entirely, so a HEIC-named file can reach
the Validator there; see the counterexample.) -/
theorem image_upload_validates_only_non_heic (cfg : FileUploadConfig) (env : UploadEnv)
    (file : Option JFile) (folder : String) (x : Option JFile)
    (hc : env.configured = true)
    (hv : (uploadFile cfg env file folder "image").validatedFile = some x) :
    isHEICFile x = false := by
  by_cases hb : (decide (("image" : String) = "image") && isHEICFile file) = true
  · have hheic : isHEICFile file = true := by simpa using hb
    rcases hconv : convertHEICToJPEG env.decode file with ⟨res, prog⟩
    cases res with
    | error e =>
      rw [(uploadFile_spec cfg env file folder "image" hc).1 e prog hb hconv] at hv
      simp at hv
    | ok y =>
      rw [(uploadFile_spec cfg env file folder "image" hc).2.1 y prog hb hconv] at hv
      rw [uAC_validatedFile] at hv
      obtain rfl := Option.some.inj hv
      cases file with
      | none => simp [isHEICFile] at hheic
      | some f =>
        obtain ⟨bsize, rfl⟩ := convertHEICToJPEG_ok_shape env.decode f hheic y prog hconv
        exact isHEICFile_converted f.name bsize
  · have hb' : (decide (("image" : String) = "image") && isHEICFile file) = false :=
      Bool.not_eq_true _ ▸ hb
    rw [(uploadFile_spec cfg env file folder "image" hc).2.2 hb'] at hv
    rw [uAC_validatedFile] at hv
    obtain rfl := Option.some.inj hv
    simpa using hb

/-- C3 counterexample: in a video-category upload of a small file named
`clip.heic`, the Validator receives that very file and the detector accepts
it — the invariant fails for the Video category. -/
theorem video_upload_validates_heic_counterexample :
    (uploadFile sampleConfig sampleEnv (some ⟨"clip.heic", 500, "video/mp4"⟩)
        "videos" "video").validatedFile = some (some ⟨"clip.heic", 500, "video/mp4"⟩) ∧
      isHEICFile (some ⟨"clip.heic", 500, "video/mp4"⟩) = true :=
  ⟨by decide, by decide⟩

/-- C3 witness: a configured image upload of `photo.heic` validates the
converted `photo.jpg`, which the detector rejects. -/
theorem image_upload_validates_only_non_heic_witness :
    sampleEnv.configured = true ∧
    (uploadFile sampleConfig sampleEnv (some ⟨"photo.heic", 500, "image/heic"⟩)
        "images" "image").validatedFile = some (some ⟨"photo.jpg", 100, "image/jpeg"⟩) ∧
    isHEICFile (some (⟨"photo.jpg", 100, "image/jpeg"⟩ : JFile)) = false :=
  ⟨rfl, by decide,
    image_upload_validates_only_non_heic sampleConfig sampleEnv
      (some ⟨"photo.heic", 500, "image/heic"⟩) "images"
      (some ⟨"photo.jpg", 100, "image/jpeg"⟩) rfl (by decide)⟩

/-- A concrete environment whose heic2any decode rejects. -/
def sampleFailEnv : UploadEnv :=
  { configured := true, decode := .error "decode failed",
    uploadResult := .ok "https://example.com/u",
    timestamp := 1700000000000, randomString := "abc123" }

/-- C6: in a configured run, the converter is invoked exactly when the category
is image and the detector matches; and when the converter fails, the facade
rejects with the converter's error while neither the Validator nor the
uploader runs. -/
theorem upload_converter_gating (cfg : FileUploadConfig) (env : UploadEnv)
    (file : Option JFile) (folder tp : String) (hc : env.configured = true) :
    ((uploadFile cfg env file folder tp).converterInvoked =
      (decide (tp = "image") && isHEICFile file)) ∧
    (∀ e, tp = "image" → isHEICFile file = true →
      (convertHEICToJPEG env.decode file).1 = .error e →
      (uploadFile cfg env file folder tp).result = .error e ∧
      (uploadFile cfg env file folder tp).validatedFile = none ∧
      (uploadFile cfg env file folder tp).uploaderInvoked = false) := by
  constructor
  · by_cases hb : (decide (tp = "image") && isHEICFile file) = true
    · rw [hb]
      rcases hconv : convertHEICToJPEG env.decode file with ⟨res, prog⟩
      cases res with
      | error e =>
        rw [(uploadFile_spec cfg env file folder tp hc).1 e prog hb hconv]
      | ok y =>
        rw [(uploadFile_spec cfg env file folder tp hc).2.1 y prog hb hconv]
        exact uAC_converterInvoked cfg env y folder tp true
    · have hb' : (decide (tp = "image") && isHEICFile file) = false :=
        Bool.not_eq_true _ ▸ hb
      rw [hb']
      rw [(uploadFile_spec cfg env file folder tp hc).2.2 hb']
      exact uAC_converterInvoked cfg env file folder tp false
  · intro e htp hheic hcerr
    subst htp
    have hb : (decide (("image" : String) = "image") && isHEICFile file) = true := by
      simp [hheic]
    have hpair : convertHEICToJPEG env.decode file =
        (.error e, (convertHEICToJPEG env.decode file).2) := by
      rcases hp : convertHEICToJPEG env.decode file with ⟨res, prog⟩
      rw [hp] at hcerr
      simp only at hcerr
      rw [hcerr]
    rw [(uploadFile_spec cfg env file folder "image" hc).1 e _ hb hpair]
    exact ⟨rfl, rfl, rfl⟩

/-- C6 witness: a failing decode on `photo.heic` in a configured image run. -/
theorem upload_converter_gating_witness :
    sampleFailEnv.configured = true ∧
    (((uploadFile sampleConfig sampleFailEnv (some ⟨"photo.heic", 500, "image/heic"⟩)
        "images" "image").converterInvoked =
      (decide (("image" : String) = "image") &&
        isHEICFile (some ⟨"photo.heic", 500, "image/heic"⟩))) ∧
    (∀ e, ("image" : String) = "image" →
      isHEICFile (some ⟨"photo.heic", 500, "image/heic"⟩) = true →
      (convertHEICToJPEG sampleFailEnv.decode (some ⟨"photo.heic", 500, "image/heic"⟩)).1 =
        .error e →
      (uploadFile sampleConfig sampleFailEnv (some ⟨"photo.heic", 500, "image/heic"⟩)
          "images" "image").result = .error e ∧
      (uploadFile sampleConfig sampleFailEnv (some ⟨"photo.heic", 500, "image/heic"⟩)
          "images" "image").validatedFile = none ∧
      (uploadFile sampleConfig sampleFailEnv (some ⟨"photo.heic", 500, "image/heic"⟩)
          "images" "image").uploaderInvoked = false)) :=
  ⟨rfl, upload_converter_gating sampleConfig sampleFailEnv
    (some ⟨"photo.heic", 500, "image/heic"⟩) "images" "image" rfl⟩

theorem validateFile_oversize (cfg : FileUploadConfig) (f : JFile) (tp : String)
    (h : (if tp = "video" then cfg.MAX_VIDEO_SIZE else cfg.MAX_IMAGE_SIZE) < f.size) :
    validateFile cfg (some f) tp =
      .error ("File size exceeds maximum allowed size of " ++
        toString (mathRound (if tp = "video" then cfg.MAX_VIDEO_SIZE else cfg.MAX_IMAGE_SIZE)
          1048576) ++ "MB") := by
  simp [validateFile, h]

/-- C4 (amended): the size ceiling is enforced against the file that reaches
validation — the converted file when HEIC conversion ran, the original
otherwise.  Whenever that file's size exceeds the category ceiling, the facade
rejects with the MB-limit message and the resumable upload is never started. -/
theorem upload_rejects_oversized_validated (cfg : FileUploadConfig) (env : UploadEnv)
    (file : Option JFile) (folder tp : String) (vf : JFile)
    (hv : (uploadFile cfg env file folder tp).validatedFile = some (some vf))
    (hsize : (if tp = "video" then cfg.MAX_VIDEO_SIZE else cfg.MAX_IMAGE_SIZE) < vf.size) :
    (uploadFile cfg env file folder tp).result =
      .error ("File size exceeds maximum allowed size of " ++
        toString (mathRound (if tp = "video" then cfg.MAX_VIDEO_SIZE else cfg.MAX_IMAGE_SIZE)
          1048576) ++ "MB") ∧
    (uploadFile cfg env file folder tp).uploaderInvoked = false := by
  by_cases hc : env.configured = true
  · by_cases hb : (decide (tp = "image") && isHEICFile file) = true
    · rcases hconv : convertHEICToJPEG env.decode file with ⟨res, prog⟩
      cases res with
      | error e =>
        rw [(uploadFile_spec cfg env file folder tp hc).1 e prog hb hconv] at hv
        simp at hv
      | ok y =>
        have hu := (uploadFile_spec cfg env file folder tp hc).2.1 y prog hb hconv
        rw [hu] at hv ⊢
        rw [uAC_validatedFile] at hv
        obtain rfl := Option.some.inj hv
        rw [uAC_of_validate_error cfg env (some vf) folder tp true _
          (validateFile_oversize cfg vf tp hsize)]
        exact ⟨rfl, rfl⟩
    · have hb' : (decide (tp = "image") && isHEICFile file) = false :=
        Bool.not_eq_true _ ▸ hb
      have hu := (uploadFile_spec cfg env file folder tp hc).2.2 hb'
      rw [hu] at hv ⊢
      rw [uAC_validatedFile] at hv
      obtain rfl := Option.some.inj hv
      rw [uAC_of_validate_error cfg env (some vf) folder tp false _
        (validateFile_oversize cfg vf tp hsize)]
      exact ⟨rfl, rfl⟩
  · have hcf : env.configured = false := Bool.not_eq_true _ ▸ hc
    simp [uploadFile, hcf] at hv

/-- C4 counterexample: an 11 MB (over-ceiling) `big.heic` whose conversion
shrinks it to 100 bytes is uploaded — the facade does not reject, and the
resumable upload runs. -/
theorem oversized_heic_uploads_counterexample :
    sampleConfig.MAX_IMAGE_SIZE < 10485761 ∧
    (uploadFile sampleConfig sampleEnv (some ⟨"big.heic", 10485761, "image/heic"⟩)
        "images" "image").uploaderInvoked = true ∧
    (uploadFile sampleConfig sampleEnv (some ⟨"big.heic", 10485761, "image/heic"⟩)
        "images" "image").result = .ok "https://example.com/u" :=
  ⟨by decide, by decide, rfl⟩

/-- C4 witness: an oversized plain JPEG is rejected with the 10MB message and
the uploader never runs. -/
theorem upload_rejects_oversized_validated_witness :
    (uploadFile sampleConfig sampleEnv (some ⟨"huge.jpg", 10485761, "image/jpeg"⟩)
        "images" "image").validatedFile = some (some ⟨"huge.jpg", 10485761, "image/jpeg"⟩) ∧
    (if ("image" : String) = "video" then sampleConfig.MAX_VIDEO_SIZE
      else sampleConfig.MAX_IMAGE_SIZE) < 10485761 ∧
    ((uploadFile sampleConfig sampleEnv (some ⟨"huge.jpg", 10485761, "image/jpeg"⟩)
        "images" "image").result =
      .error ("File size exceeds maximum allowed size of " ++
        toString (mathRound (if ("image" : String) = "video" then sampleConfig.MAX_VIDEO_SIZE
          else sampleConfig.MAX_IMAGE_SIZE) 1048576) ++ "MB") ∧
    (uploadFile sampleConfig sampleEnv (some ⟨"huge.jpg", 10485761, "image/jpeg"⟩)
        "images" "image").uploaderInvoked = false) :=
  ⟨by decide, by decide,
    upload_rejects_oversized_validated sampleConfig sampleEnv
      (some ⟨"huge.jpg", 10485761, "image/jpeg"⟩) "images" "image"
      ⟨"huge.jpg", 10485761, "image/jpeg"⟩ (by decide) (by decide)⟩

theorem isHEICFile_false_of_bmp (f : JFile)
    (hbmp : jsEndsWith (jsToLower f.name) ".bmp" = true)
    (hmime : heicMimeTypes.contains (jsToLower f.type) = false) :
    isHEICFile (some f) = false := by
  have hsuf : (".bmp".data : List Char) <:+ (jsToLower f.name).data := by
    simpa [jsEndsWith, List.isSuffixOf_iff_suffix] using hbmp
  have hy : (jsToLower f.name).data.getLast? = some 'p' := by
    rw [getLast?_of_suffix hsuf (by decide)]
    rfl
  simp only [isHEICFile]
  rw [Bool.or_eq_false_iff]
  refine ⟨?_, hmime⟩
  rw [List.any_eq_false]
  intro x hx
  fin_cases hx
  all_goals
    intro hcon
    simp only [jsEndsWith] at hcon
    have hsf := List.isSuffixOf_iff_suffix.mp hcon
    have hc2 := getLast?_of_suffix hsf (by decide)
    rw [hy] at hc2
    exact absurd hc2 (by decide)

/-- C5 (amended): an image-category file whose extension sits in the blocklist
and whose size is within the image ceiling is rejected by the Validator with
the unsupported-format message regardless of its declared MIME type; and a
`.bmp`-named file whose declared MIME type is not itself a HEIC/HEIF MIME type
is not matched by the detector, so the facade attempts no conversion and no
upload, rejecting with that same message. -/
theorem blocklisted_extension_rejection (cfg : FileUploadConfig) (env : UploadEnv)
    (f : JFile) (folder : String)
    (hsize : f.size ≤ cfg.MAX_IMAGE_SIZE)
    (hext : unsupportedImageExtensions.contains (getFileExtension f.name) = true) :
    validateFile cfg (some f) "image" = .error (getImageFormatError f) ∧
    (jsEndsWith (jsToLower f.name) ".bmp" = true →
      heicMimeTypes.contains (jsToLower f.type) = false →
      env.configured = true →
      isHEICFile (some f) = false ∧
      (uploadFile cfg env (some f) folder "image").converterInvoked = false ∧
      (uploadFile cfg env (some f) folder "image").uploaderInvoked = false ∧
      (uploadFile cfg env (some f) folder "image").result =
        .error (getImageFormatError f)) := by
  have h1 : ¬ (cfg.MAX_IMAGE_SIZE < f.size) := not_lt.mpr hsize
  have hext2 : getFileExtension f.name ∈ unsupportedImageExtensions := by
    simpa using hext
  have hval : validateFile cfg (some f) "image" = .error (getImageFormatError f) := by
    simp [validateFile, h1, hext2]
  refine ⟨hval, fun hbmp hmime hc => ?_⟩
  have hdet := isHEICFile_false_of_bmp f hbmp hmime
  have hb' : (decide (("image" : String) = "image") && isHEICFile (some f)) = false := by
    simp [hdet]
  have hu := (uploadFile_spec cfg env (some f) folder "image" hc).2.2 hb'
  refine ⟨hdet, ?_, ?_, ?_⟩ <;> rw [hu]
  · exact uAC_converterInvoked cfg env (some f) folder "image" false
  · rw [uAC_of_validate_error cfg env (some f) folder "image" false _ hval]
  · rw [uAC_of_validate_error cfg env (some f) folder "image" false _ hval]

/-- C5 counterexample: `chart.bmp` declared as `image/heic` is accepted by the
detector (MIME match), so the facade does attempt a conversion — the claim's
assertion that the detector returns false on every `.bmp` file fails. -/
theorem bmp_detector_counterexample :
    isHEICFile (some ⟨"chart.bmp", 1000, "image/heic"⟩) = true ∧
    (uploadFile sampleConfig sampleEnv (some ⟨"chart.bmp", 1000, "image/heic"⟩)
        "images" "image").converterInvoked = true :=
  ⟨by decide, by decide⟩

/-- C5 witness: a 1000-byte `chart.bmp` of MIME `image/bmp`. -/
theorem blocklisted_extension_rejection_witness :
    (1000 : Nat) ≤ sampleConfig.MAX_IMAGE_SIZE ∧
    unsupportedImageExtensions.contains (getFileExtension "chart.bmp") = true ∧
    (validateFile sampleConfig (some ⟨"chart.bmp", 1000, "image/bmp"⟩) "image" =
        .error (getImageFormatError ⟨"chart.bmp", 1000, "image/bmp"⟩) ∧
      (jsEndsWith (jsToLower "chart.bmp") ".bmp" = true →
        heicMimeTypes.contains (jsToLower "image/bmp") = false →
        sampleEnv.configured = true →
        isHEICFile (some ⟨"chart.bmp", 1000, "image/bmp"⟩) = false ∧
        (uploadFile sampleConfig sampleEnv (some ⟨"chart.bmp", 1000, "image/bmp"⟩)
            "images" "image").converterInvoked = false ∧
        (uploadFile sampleConfig sampleEnv (some ⟨"chart.bmp", 1000, "image/bmp"⟩)
            "images" "image").uploaderInvoked = false ∧
        (uploadFile sampleConfig sampleEnv (some ⟨"chart.bmp", 1000, "image/bmp"⟩)
            "images" "image").result =
          .error (getImageFormatError ⟨"chart.bmp", 1000, "image/bmp"⟩))) :=
  ⟨by decide, by decide,
    blocklisted_extension_rejection sampleConfig sampleEnv
      ⟨"chart.bmp", 1000, "image/bmp"⟩ "images" (by decide) (by decide)⟩

/-- C8: the generated storage key has the documented
folder-slash-timestamp-underscore-token-dot-extension shape, with the
extension the last dot-separated segment of the file name; and within one
millisecond (equal timestamps) distinct random tokens give distinct paths. -/
theorem generateFilePath_shape_and_unique (ts : Nat) (r1 r2 : String) (f : JFile)
    (folder : String) (h : r1 ≠ r2) :
    generateFilePath ts r1 f folder =
      folder ++ "/" ++ toString ts ++ "_" ++ r1 ++ "." ++
        (jsSplitChar '.' f.name).getLastD "" ∧
    generateFilePath ts r1 f folder ≠ generateFilePath ts r2 f folder := by
  constructor
  · apply String.ext
    simp [generateFilePath, List.append_assoc]
  · intro heq
    apply h
    have hdata := congrArg String.data heq
    simp [generateFilePath, List.append_assoc] at hdata
    exact String.ext hdata

/-- C8 witness: two tokens drawn in the same millisecond. -/
theorem generateFilePath_shape_and_unique_witness :
    ("abc" : String) ≠ "xyz" ∧
    (generateFilePath 1700000000000 "abc" ⟨"photo.jpg", 5, "image/jpeg"⟩ "images" =
        "images" ++ "/" ++ toString (1700000000000 : Nat) ++ "_" ++ "abc" ++ "." ++
          (jsSplitChar '.' "photo.jpg").getLastD "" ∧
      generateFilePath 1700000000000 "abc" ⟨"photo.jpg", 5, "image/jpeg"⟩ "images" ≠
        generateFilePath 1700000000000 "xyz" ⟨"photo.jpg", 5, "image/jpeg"⟩ "images") :=
  ⟨by decide,
    generateFilePath_shape_and_unique 1700000000000 "abc" "xyz"
      ⟨"photo.jpg", 5, "image/jpeg"⟩ "images" (by decide)⟩

theorem lastQuestionIdx_none {l : List Char} (h : '?' ∉ l) : lastQuestionIdx l = none := by
  induction l with
  | nil => rfl
  | cons c rest ih =>
    have hc : ¬ (c = '?') := by
      intro e
      subst e
      exact h (List.mem_cons_self _ _)
    have hr : '?' ∉ rest := fun m => h (List.mem_cons_of_mem c m)
    simp [lastQuestionIdx, ih hr, hc]

theorem regexOMatch_none {l : List Char} (h : '?' ∉ l) : regexOMatch l = none := by
  induction l with
  | nil => rfl
  | cons c rest ih =>
    have hr : '?' ∉ rest := fun m => h (List.mem_cons_of_mem c m)
    have hdrop : '?' ∉ List.drop 2 rest := fun m => hr (List.mem_of_mem_drop m)
    simp [regexOMatch, lastQuestionIdx_none hdrop, ih hr]

theorem parsePathname_no_question {s p : String} (h : parsePathname s = some p) :
    '?' ∉ p.data := by
  simp only [parsePathname] at h
  split at h
  · exact absurd h (by simp)
  · split at h
    · obtain rfl := Option.some.inj h
      decide
    · split at h
      · obtain rfl := Option.some.inj h
        intro m
        have hpred := List.mem_takeWhile_imp m
        simp at hpred
      · obtain rfl := Option.some.inj h
        decide

/-- C1: the claimed upload/delete round-trip fails on the code.  `deleteFile`
matches the pattern slash-o-slash-capture-question-mark against
`url.pathname`, but a URL's pathname never contains the `?` that starts the
query string, so the match fails on every well-formed download URL — including
the one documented in the code's own comment — and `deleteFile` raises
`Invalid Firebase Storage URL` for every input whatsoever instead of deleting. -/
theorem deleteFile_never_deletes :
    deleteFile true (firebaseDownloadURL "demo-bucket" "images/1700000000000_abc123.jpg") =
      .error "Invalid Firebase Storage URL" ∧
    ∀ fileUrl : String, ∃ e, deleteFile true fileUrl = Except.error e := by
  constructor
  · rfl
  · intro url
    unfold deleteFile
    rw [if_neg (by decide)]
    cases hp : parsePathname url with
    | none => exact ⟨"Invalid URL", rfl⟩
    | some p =>
      refine ⟨"Invalid Firebase Storage URL", ?_⟩
      simp only [regexOMatch_none (parsePathname_no_question hp)]
